import Mathlib

/-!
# Verification of the CPAP data uploader probe client

Shallow embedding of `test_upload_efficiency.py`: the checksum computer,
the token-acquisition fallback (`get_token`), the workspace resolver
(`get_team_id`), the import-session creator (`create_import`), the two
multipart upload body builders (`upload_file_hash_last`, `upload_batch`)
and the driver (`main`).  Network interaction is modelled by passing
response oracles explicitly; each operation also returns the trace of
requests and log lines it would emit.
-/

namespace Uploader

/-! ## Bytes and UTF-8 encoding -/

/-- UTF-8 encoding of a single character (RFC 3629), as natural-number bytes. -/
def utf8Char (c : Char) : List Nat :=
  let n := c.toNat
  if n < 0x80 then [n]
  else if n < 0x800 then [0xC0 + n / 64, 0x80 + n % 64]
  else if n < 0x10000 then [0xE0 + n / 4096, 0x80 + (n / 64) % 64, 0x80 + n % 64]
  else [0xF0 + n / 262144, 0x80 + (n / 4096) % 64, 0x80 + (n / 64) % 64, 0x80 + n % 64]

/-- UTF-8 encoding of a character list. -/
def bytesOfChars : List Char → List Nat
  | [] => []
  | c :: cs => utf8Char c ++ bytesOfChars cs

/-- UTF-8 encoding of a string (Python's `str.encode()`). -/
def strBytes (s : String) : List Nat := bytesOfChars s.data

theorem bytesOfChars_append (l₁ l₂ : List Char) :
    bytesOfChars (l₁ ++ l₂) = bytesOfChars l₁ ++ bytesOfChars l₂ := by
  induction l₁ with
  | nil => rfl
  | cons c cs ih => simp [bytesOfChars, ih]

theorem strBytes_append (s t : String) :
    strBytes (s ++ t) = strBytes s ++ strBytes t := by
  simp [strBytes, String.data_append, bytesOfChars_append]

/-- Every byte of a UTF-8 encoded character that is below 128 is the code
point of an ASCII character: multi-byte encodings use only bytes ≥ 128. -/
theorem utf8Char_byte_lt_128 (c : Char) (b : Nat) (hb : b ∈ utf8Char c) (h : b < 128) :
    b = c.toNat := by
  unfold utf8Char at hb
  by_cases h1 : c.toNat < 0x80
  · simp [h1] at hb; omega
  · by_cases h2 : c.toNat < 0x800
    · simp [h1, h2] at hb
      rcases hb with hb | hb <;> omega
    · by_cases h3 : c.toNat < 0x10000
      · simp [h1, h2, h3] at hb
        rcases hb with hb | hb | hb <;> omega
      · simp [h1, h2, h3] at hb
        rcases hb with hb | hb | hb | hb <;> omega

/-! ## MD5 (RFC 1321), the digest used by `hashlib.md5` -/

/-- The 64 MD5 sine-derived constants. -/
def md5K : List Nat :=
  [0xd76aa478, 0xe8c7b756, 0x242070db, 0xc1bdceee,
   0xf57c0faf, 0x4787c62a, 0xa8304613, 0xfd469501,
   0x698098d8, 0x8b44f7af, 0xffff5bb1, 0x895cd7be,
   0x6b901122, 0xfd987193, 0xa679438e, 0x49b40821,
   0xf61e2562, 0xc040b340, 0x265e5a51, 0xe9b6c7aa,
   0xd62f105d, 0x02441453, 0xd8a1e681, 0xe7d3fbc8,
   0x21e1cde6, 0xc33707d6, 0xf4d50d87, 0x455a14ed,
   0xa9e3e905, 0xfcefa3f8, 0x676f02d9, 0x8d2a4c8a,
   0xfffa3942, 0x8771f681, 0x6d9d6122, 0xfde5380c,
   0xa4beea44, 0x4bdecfa9, 0xf6bb4b60, 0xbebfbc70,
   0x289b7ec6, 0xeaa127fa, 0xd4ef3085, 0x04881d05,
   0xd9d4d039, 0xe6db99e5, 0x1fa27cf8, 0xc4ac5665,
   0xf4292244, 0x432aff97, 0xab9423a7, 0xfc93a039,
   0x655b59c3, 0x8f0ccc92, 0xffeff47d, 0x85845dd1,
   0x6fa87e4f, 0xfe2ce6e0, 0xa3014314, 0x4e0811a1,
   0xf7537e82, 0xbd3af235, 0x2ad7d2bb, 0xeb86d391]

/-- The 64 MD5 per-round left-rotation amounts. -/
def md5S : List Nat :=
  [7, 12, 17, 22, 7, 12, 17, 22, 7, 12, 17, 22, 7, 12, 17, 22,
   5, 9, 14, 20, 5, 9, 14, 20, 5, 9, 14, 20, 5, 9, 14, 20,
   4, 11, 16, 23, 4, 11, 16, 23, 4, 11, 16, 23, 4, 11, 16, 23,
   6, 10, 15, 21, 6, 10, 15, 21, 6, 10, 15, 21, 6, 10, 15, 21]

/-- 32-bit bitwise complement of a word. -/
def w32not (x : Nat) : Nat := Nat.xor 0xFFFFFFFF x

/-- Left rotation of a 32-bit word by `c` places. -/
def leftrotate (x c : Nat) : Nat :=
  (x * 2 ^ c + x / 2 ^ (32 - c)) % 2 ^ 32

/-- One of the 64 MD5 operations, acting on state `(a, b, c, d)`;
`m` are the sixteen message words of the current chunk. -/
def md5Op (m : List Nat) (st : Nat × Nat × Nat × Nat) (i : Nat) : Nat × Nat × Nat × Nat :=
  let (a, b, c, d) := st
  let f :=
    if i < 16 then Nat.lor (Nat.land b c) (Nat.land (w32not b) d)
    else if i < 32 then Nat.lor (Nat.land d b) (Nat.land (w32not d) c)
    else if i < 48 then Nat.xor (Nat.xor b c) d
    else Nat.xor c (Nat.lor b (w32not d))
  let g :=
    if i < 16 then i
    else if i < 32 then (5 * i + 1) % 16
    else if i < 48 then (3 * i + 5) % 16
    else (7 * i) % 16
  let tmp := (f + a + md5K.getD i 0 + m.getD g 0) % 2 ^ 32
  (d, (b + leftrotate tmp (md5S.getD i 0)) % 2 ^ 32, b, c)

/-- Split a 64-byte chunk (little-endian) into sixteen 32-bit words. -/
def chunkWords (chunk : List Nat) : List Nat :=
  (List.range 16).map fun j =>
    chunk.getD (4 * j) 0 + chunk.getD (4 * j + 1) 0 * 256 +
      chunk.getD (4 * j + 2) 0 * 65536 + chunk.getD (4 * j + 3) 0 * 16777216

/-- Process one 64-byte chunk, updating the running MD5 state. -/
def md5Chunk (st : Nat × Nat × Nat × Nat) (chunk : List Nat) : Nat × Nat × Nat × Nat :=
  let m := chunkWords chunk
  let (a, b, c, d) := (List.range 64).foldl (md5Op m) st
  ((st.1 + a) % 2 ^ 32, (st.2.1 + b) % 2 ^ 32, (st.2.2.1 + c) % 2 ^ 32, (st.2.2.2 + d) % 2 ^ 32)

/-- Fold the MD5 compression over successive 64-byte chunks; the fuel
argument (any bound on the number of chunks) makes recursion structural. -/
def md5Fold : Nat → Nat × Nat × Nat × Nat → List Nat → Nat × Nat × Nat × Nat
  | 0, st, _ => st
  | fuel + 1, st, l => if l = [] then st else md5Fold fuel (md5Chunk st (l.take 64)) (l.drop 64)

/-- MD5 padding: a `0x80` byte, zeros to 56 mod 64, then the original
bit length as eight little-endian bytes. -/
def md5Pad (msg : List Nat) : List Nat :=
  let padLen := (55 + 64 - msg.length % 64) % 64 + 1
  let bitLen := (msg.length * 8) % 2 ^ 64
  msg ++ [0x80] ++ List.replicate (padLen - 1) 0 ++
    (List.range 8).map fun j => bitLen / 2 ^ (8 * j) % 256

/-- Serialize a 32-bit word as four little-endian bytes. -/
def wordLEBytes (w : Nat) : List Nat :=
  [w % 256, w / 256 % 256, w / 65536 % 256, w / 16777216 % 256]

/-- The 16-byte MD5 digest of a byte sequence. -/
def md5 (msg : List Nat) : List Nat :=
  let padded := md5Pad msg
  let st := md5Fold padded.length (0x67452301, 0xefcdab89, 0x98badcfe, 0x10325476) padded
  wordLEBytes st.1 ++ wordLEBytes st.2.1 ++ wordLEBytes st.2.2.1 ++ wordLEBytes st.2.2.2

/-- The lowercase hexadecimal alphabet. -/
def hexDigits : List Char := "0123456789abcdef".data

/-- Lowercase hex character of a nibble. -/
def hexChar (n : Nat) : Char := hexDigits.getD (n % 16) '0'

/-- Lowercase hexadecimal rendering of a byte list (Python's `.hexdigest()`). -/
def hexOfBytes (bs : List Nat) : String :=
  ⟨bs.flatMap fun b => [hexChar (b / 16), hexChar b]⟩

/-- `hashlib.md5(file_content + file_name.encode()).hexdigest()` from
`upload_file_hash_last` and `upload_batch`. -/
def computeContentHash (fileBytes : List Nat) (fileName : String) : String :=
  hexOfBytes (md5 (fileBytes ++ strBytes fileName))

/-! ## Static configuration constants of the script -/

def CLIENT_ID : String := "XUDOMtBDQE_ftzZwDKS7PM3naIl6r__Sz69LrhbyBk8"

def CLIENT_SECRET : String := "41pRyqRmWUZhwnWssLvAw67eVA7NVDPQKkzyiSSfwjw"

def BASE_URL : String := "https://sleephq.com"

/-! ## Authenticator: `get_token`

The three form-encoded request bodies it posts, in order, and the result
together with its request and log traces.  The token endpoint is modelled
as an oracle from the posted body to the response. -/

/-- Response of the token endpoint: HTTP status, the `access_token` field of
the JSON body when present, and the raw body text. -/
structure TokenResp where
  status : Nat
  access_token : Option String
  text : String

/-- `grant_type=password&client_id=…&client_secret=…`, shared by all attempts. -/
def tokenBodyBase : String :=
  "grant_type=password&client_id=" ++ CLIENT_ID ++ "&client_secret=" ++ CLIENT_SECRET

/-- Body of attempt 1: literal `scope=read+write`. -/
def tokenBody1 : String := tokenBodyBase ++ "&scope=read+write"

/-- Body of attempt 2: `scope=api`. -/
def tokenBody2 : String := tokenBodyBase ++ "&scope=api"

/-- Body of attempt 3: no scope parameter. -/
def tokenBody3 : String := tokenBodyBase

/-- Result of `get_token`: the returned token, the bodies posted (in order),
and the lines printed (in order). -/
structure GetTokenOut where
  token : Option String
  requests : List String
  logs : List String

/-- `get_token` from the script: posts `tokenBody1`, `tokenBody2`,
`tokenBody3` in order, stopping at the first 200 response and returning its
`access_token`; prints the initial body announcement, the attempt-1 failure
text when attempt 1 fails, and the final failure line when all fail. -/
def get_token (post : String → TokenResp) : GetTokenOut :=
  let reqLog := "Requesting token with body: " ++ tokenBody1
  let r1 := post tokenBody1
  if r1.status = 200 then
    { token := r1.access_token, requests := [tokenBody1], logs := [reqLog] }
  else
    let fail1 := "Token attempt 1 failed: " ++ r1.text
    let r2 := post tokenBody2
    if r2.status = 200 then
      { token := r2.access_token, requests := [tokenBody1, tokenBody2], logs := [reqLog, fail1] }
    else
      let r3 := post tokenBody3
      if r3.status = 200 then
        { token := r3.access_token, requests := [tokenBody1, tokenBody2, tokenBody3],
          logs := [reqLog, fail1] }
      else
        { token := none, requests := [tokenBody1, tokenBody2, tokenBody3],
          logs := [reqLog, fail1, "All token attempts failed."] }

/-! ## Session resolver `get_team_id` and import creator `create_import` -/

/-- The `data` object of the `/api/v1/me` JSON body: the
`current_team_id` key may be absent. -/
structure MeData where
  current_team_id : Option Nat

/-- Response of `/api/v1/me`: status and the optional `data` object. -/
structure MeResp where
  status : Nat
  data : Option MeData

/-- `get_team_id` from the script:
`response.json().get("data", {}).get("current_team_id")` on a 200
response, `None` otherwise. -/
def get_team_id (resp : MeResp) : Option Nat :=
  if resp.status = 200 then
    match resp.data with
    | some d => d.current_team_id
    | none => none
  else none

/-- The `data` object of the import-creation response. -/
structure ImportData where
  id : Option String

/-- Response of `POST /api/v1/teams/…/imports`. -/
structure ImportResp where
  status : Nat
  data : Option ImportData
  text : String

/-- `create_import` from the script: `response.json().get("data", {}).get("id")`
on a 201 response, `None` otherwise. -/
def create_import (resp : ImportResp) : Option String :=
  if resp.status = 201 then
    match resp.data with
    | some d => d.id
    | none => none
  else none

/-! ## Multipart bodies -/

/-- `os.path.basename`: the final path component. -/
def basename (p : String) : String := (p.splitOn "/").getLastD ""

/-- `--boundary\r\n`, the opening delimiter line of every part. -/
def partHead (boundary : String) : List Nat := strBytes ("--" ++ boundary ++ "\r\n")

/-- `--boundary--\r\n`, the closing delimiter. -/
def closeDelim (boundary : String) : List Nat := strBytes ("--" ++ boundary ++ "--\r\n")

/-- The `name` part of the single-file upload body. -/
def namePart (boundary file_name : String) : List Nat :=
  partHead boundary ++
    strBytes "Content-Disposition: form-data; name=\x22name\x22\r\n\r\n" ++
    strBytes file_name ++ strBytes "\r\n"

/-- The `path` part of the single-file upload body. -/
def pathPart (boundary remote_path : String) : List Nat :=
  partHead boundary ++
    strBytes "Content-Disposition: form-data; name=\x22path\x22\r\n\r\n" ++
    strBytes remote_path ++ strBytes "\r\n"

/-- The `file` part of the single-file upload body. -/
def filePart (boundary file_name : String) (file_content : List Nat) : List Nat :=
  partHead boundary ++
    strBytes ("Content-Disposition: form-data; name=\x22file\x22; filename=\x22" ++
      file_name ++ "\x22\r\n") ++
    strBytes "Content-Type: application/octet-stream\r\n\r\n" ++
    file_content ++ strBytes "\r\n"

/-- The `content_hash` part of the single-file upload body. -/
def hashPart (boundary content_hash : String) : List Nat :=
  partHead boundary ++
    strBytes "Content-Disposition: form-data; name=\x22content_hash\x22\r\n\r\n" ++
    strBytes content_hash ++ strBytes "\r\n"

/-- Response of the file-upload endpoint. -/
structure UploadResp where
  status : Nat
  text : String

/-- Result of `upload_file_hash_last`: the multipart body it posted, the
returned boolean, and its log lines. -/
structure SingleUploadOut where
  body : List Nat
  success : Bool
  logs : List String

/-- `"----TestBoundary" + str(int(time.time()))`. -/
def singleBoundary (t : Nat) : String := "----TestBoundary" ++ toString t

/-- `upload_file_hash_last` from the script: reads the file, computes the
content hash, builds the multipart body with parts in the order
name, path, file, content_hash, posts it, and reports success iff the
status is 201 or 200.  `t` is the current time used for the boundary. -/
def upload_file_hash_last (post : List Nat → UploadResp) (readFile : String → List Nat)
    (t : Nat) (import_id : Option String) (file_path remote_path : String) : SingleUploadOut :=
  let file_name := basename file_path
  let file_content := readFile file_path
  let content_hash := computeContentHash file_content file_name
  let boundary := singleBoundary t
  let body := namePart boundary file_name ++ pathPart boundary remote_path ++
    filePart boundary file_name file_content ++ hashPart boundary content_hash ++
    closeDelim boundary
  let resp := post body
  { body := body
    success := resp.status == 201 || resp.status == 200
    logs := ["Uploading " ++ file_name ++ " with hash LAST...",
             "Status: " ++ toString resp.status] }

/-- `"----BatchBoundary" + str(int(time.time()))`. -/
def batchBoundary (t : Nat) : String := "----BatchBoundary" ++ toString t

/-- A `name[]` part of the batch body. -/
def bNamePart (boundary file_name : String) : List Nat :=
  partHead boundary ++
    strBytes "Content-Disposition: form-data; name=\x22name[]\x22\r\n\r\n" ++
    strBytes file_name ++ strBytes "\r\n"

/-- A `content_hash[]` part of the batch body. -/
def bHashPart (boundary content_hash : String) : List Nat :=
  partHead boundary ++
    strBytes "Content-Disposition: form-data; name=\x22content_hash[]\x22\r\n\r\n" ++
    strBytes content_hash ++ strBytes "\r\n"

/-- A `file[]` part of the batch body. -/
def bFilePart (boundary file_name : String) (file_content : List Nat) : List Nat :=
  partHead boundary ++
    strBytes ("Content-Disposition: form-data; name=\x22file[]\x22; filename=\x22" ++
      file_name ++ "\x22\r\n") ++
    strBytes "Content-Type: application/octet-stream\r\n\r\n" ++
    file_content ++ strBytes "\r\n"

/-- The shared `path` part of the batch body. -/
def bPathPart (boundary remote_path : String) : List Nat :=
  partHead boundary ++
    strBytes "Content-Disposition: form-data; name=\x22path\x22\r\n\r\n" ++
    strBytes remote_path ++ strBytes "\r\n"

/-- The labelled parts the batch loop emits for one input file:
its `name[]`, `content_hash[]` and `file[]` parts, in that order. -/
def batchFileTriple (boundary : String) (readFile : String → List Nat) (fp : String) :
    List (String × List Nat) :=
  let file_name := basename fp
  let file_content := readFile fp
  let content_hash := computeContentHash file_content file_name
  [("name[]", bNamePart boundary file_name),
   ("content_hash[]", bHashPart boundary content_hash),
   ("file[]", bFilePart boundary file_name file_content)]

/-- All labelled parts of the batch body: one triple per input file,
then the single shared `path` part. -/
def batchParts (boundary : String) (readFile : String → List Nat)
    (file_paths : List String) (remote_path : String) : List (String × List Nat) :=
  file_paths.flatMap (batchFileTriple boundary readFile) ++
    [("path", bPathPart boundary remote_path)]

/-- Result of `upload_batch`: the posted body, the response status, logs. -/
structure BatchOut where
  body : List Nat
  status : Nat
  logs : List String

/-- `upload_batch` from the script: per input file appends `name[]`,
`content_hash[]`, `file[]` parts, then one shared `path` part, then the
closing delimiter; posts once and logs the status and body text. -/
def upload_batch (post : List Nat → UploadResp) (readFile : String → List Nat)
    (t : Nat) (import_id : Option String) (file_paths : List String)
    (remote_path : String) : BatchOut :=
  let boundary := batchBoundary t
  let body := (batchParts boundary readFile file_paths remote_path).flatMap Prod.snd ++
    closeDelim boundary
  let resp := post body
  { body := body
    status := resp.status
    logs := ["Attempting batch upload of " ++ toString file_paths.length ++
               " files (unlikely to work but testing)...",
             "Batch Status: " ++ toString resp.status,
             "Batch Body: " ++ resp.text] }

/-! ## Driver: `main` -/

/-- A network call the driver can make, with the data that identifies it. -/
inductive NetCall
  | token (body : String)
  | me
  | createImport (team : Option Nat)
  | upload (import_id : Option String) (body : List Nat)
deriving DecidableEq

/-- The whole remote and local environment the run interacts with. -/
structure Env where
  postToken : String → TokenResp
  meResp : MeResp
  importResp : ImportResp
  postUpload : List Nat → UploadResp
  fileExists : String → Bool
  readFile : String → List Nat
  timeNow : Nat

/-- The hardcoded single-upload test file. -/
def TEST_FILE : String := "/root/sdcard2/Identification.json"

/-- The hardcoded batch files. -/
def BATCH_FILES : List String :=
  ["/root/sdcard2/Identification.json", "/root/sdcard2/Identification.crc"]

/-- Python truthiness of the token: `if not token` is taken when the token
is `None` or the empty string. -/
def tokenFalsy : Option String → Bool
  | none => true
  | some s => s == ""

/-- The sequence of network calls `main` makes: the token attempts, then —
only if a (truthy) token was obtained — the `/me` lookup, the import
creation, and the uploads guarded by file-existence checks. -/
def mainCalls (env : Env) : List NetCall :=
  let gt := get_token env.postToken
  let tcalls := gt.requests.map NetCall.token
  if tokenFalsy gt.token then tcalls
  else
    let team := get_team_id env.meResp
    let importId := create_import env.importResp
    tcalls ++ [NetCall.me, NetCall.createImport team] ++
      (if env.fileExists TEST_FILE then
        [NetCall.upload importId
          (upload_file_hash_last env.postUpload env.readFile env.timeNow importId
            TEST_FILE "/").body]
      else []) ++
      (if BATCH_FILES.all env.fileExists then
        [NetCall.upload importId
          (upload_batch env.postUpload env.readFile env.timeNow importId
            BATCH_FILES "/").body]
      else [])

/-! ## Helper lemmas -/

theorem md5_length (msg : List Nat) : (md5 msg).length = 16 := by
  simp [md5, wordLEBytes]

theorem hexOfBytes_length (bs : List Nat) : (hexOfBytes bs).length = 2 * bs.length := by
  simp only [hexOfBytes, String.length]
  induction bs with
  | nil => rfl
  | cons a t ih => simp_all [List.flatMap_cons]; omega

theorem hexChar_mem (n : Nat) : hexChar n ∈ hexDigits := by
  have h : n % 16 < hexDigits.length := by
    have : n % 16 < 16 := Nat.mod_lt _ (by omega)
    simpa [hexDigits] using this
  rw [hexChar, List.getD_eq_getElem _ _ h]
  exact List.getElem_mem h

theorem hexOfBytes_mem (bs : List Nat) (c : Char) (hc : c ∈ (hexOfBytes bs).data) :
    c ∈ hexDigits := by
  simp only [hexOfBytes, List.mem_flatMap] at hc
  obtain ⟨b, _, hb⟩ := hc
  simp only [List.mem_cons, List.not_mem_nil, or_false] at hb
  rcases hb with h | h <;> exact h ▸ hexChar_mem _

/-- RFC 1321 test vector: the MD5 of the empty message. -/
theorem md5_test_empty : hexOfBytes (md5 []) = "d41d8cd98f00b204e9800998ecf8427e" := by decide

/-- RFC 1321 test vector: the MD5 of `abc`. -/
theorem md5_test_abc :
    hexOfBytes (md5 (strBytes "abc")) = "900150983cd24fb0d6963f7d28e17f72" := by decide

/-! ## Claim theorems: checksum computer -/

/-- C1: `computeContentHash` is the lowercase hexadecimal encoding of the
128-bit MD5 digest of the file bytes followed by the UTF-8 encoded file
name; it is a pure function (hence deterministic), and its output is a
32-character lowercase-hex string. -/
theorem computeContentHash_spec (fileBytes : List Nat) (fileName : String) :
    computeContentHash fileBytes fileName =
      hexOfBytes (md5 (fileBytes ++ strBytes fileName)) ∧
    (computeContentHash fileBytes fileName).length = 32 ∧
    ∀ c ∈ (computeContentHash fileBytes fileName).data, c ∈ hexDigits := by
  refine ⟨rfl, ?_, ?_⟩
  · rw [computeContentHash, hexOfBytes_length, md5_length]
  · intro c hc
    exact hexOfBytes_mem _ c hc

/-- Witness for C1 at a concrete input: the digit hypothesis is
discharged at the first character of the hash of the empty file. -/
theorem computeContentHash_spec_witness :
    'd' ∈ (computeContentHash [] "").data ∧ 'd' ∈ hexDigits :=
  ⟨by decide, (computeContentHash_spec [] "").2.2 'd' (by decide)⟩

/-- C9: the concatenation scheme `fileBytes ++ UTF-8(fileName)` is not
injective — moving a trailing byte of the content into the name gives a
distinct input pair with the same concatenation — and any two pairs with
equal concatenation deterministically receive the identical hash. -/
theorem contentHash_concat_collision :
    (([97, 98] ++ strBytes "c" = [97] ++ strBytes "bc") ∧
      (([97, 98] : List Nat), "c") ≠ (([97] : List Nat), "bc")) ∧
    ∀ (b1 : List Nat) (n1 : String) (b2 : List Nat) (n2 : String),
      b1 ++ strBytes n1 = b2 ++ strBytes n2 →
      computeContentHash b1 n1 = computeContentHash b2 n2 := by
  refine ⟨⟨by decide, by decide⟩, ?_⟩
  intro b1 n1 b2 n2 h
  rw [computeContentHash, computeContentHash, h]

/-- Witness for C9 at the concrete colliding pair. -/
theorem contentHash_concat_collision_witness :
    ([97, 98] ++ strBytes "c" = [97] ++ strBytes "bc") ∧
    computeContentHash [97, 98] "c" = computeContentHash [97] "bc" :=
  ⟨by decide, contentHash_concat_collision.2 [97, 98] "c" [97] "bc" (by decide)⟩

/-! ## Claim theorems: authenticator -/

/-- C2: `get_token` tries, in strict order, the literal `scope=read+write`
body, then the `scope=api` body, then the scope-free body, returning the
`access_token` of the first attempt answered with status 200 and issuing
no request beyond that attempt. -/
theorem get_token_first_success (post : String → TokenResp) :
    tokenBody1 = tokenBodyBase ++ "&scope=read+write" ∧
    tokenBody2 = tokenBodyBase ++ "&scope=api" ∧
    tokenBody3 = tokenBodyBase ∧
    ((post tokenBody1).status = 200 →
      (get_token post).token = (post tokenBody1).access_token ∧
      (get_token post).requests = [tokenBody1]) ∧
    ((post tokenBody1).status ≠ 200 → (post tokenBody2).status = 200 →
      (get_token post).token = (post tokenBody2).access_token ∧
      (get_token post).requests = [tokenBody1, tokenBody2]) ∧
    ((post tokenBody1).status ≠ 200 → (post tokenBody2).status ≠ 200 →
      (post tokenBody3).status = 200 →
      (get_token post).token = (post tokenBody3).access_token ∧
      (get_token post).requests = [tokenBody1, tokenBody2, tokenBody3]) := by
  refine ⟨rfl, rfl, rfl, ?_, ?_, ?_⟩ <;> intros <;> simp_all [get_token]

/-- Witness for C2: a token endpoint accepting every body yields the
first attempt's token after a single request. -/
theorem get_token_first_success_witness :
    (((fun _ => TokenResp.mk 200 (some "tok") "") : String → TokenResp) tokenBody1).status
        = 200 ∧
    (get_token ((fun _ => TokenResp.mk 200 (some "tok") "") : String → TokenResp)).token
        = some "tok" ∧
    (get_token ((fun _ => TokenResp.mk 200 (some "tok") "") : String → TokenResp)).requests
        = [tokenBody1] :=
  ⟨rfl, (get_token_first_success _).2.2.2.1 rfl⟩

/-- C3: when all three token attempts are answered with non-200 statuses,
`get_token` returns the `None` sentinel and the run makes no network call
beyond the three token requests — no `/me` lookup, no import creation,
no upload. -/
theorem get_token_all_fail_aborts (env : Env)
    (h1 : (env.postToken tokenBody1).status ≠ 200)
    (h2 : (env.postToken tokenBody2).status ≠ 200)
    (h3 : (env.postToken tokenBody3).status ≠ 200) :
    (get_token env.postToken).token = none ∧
    mainCalls env =
      [NetCall.token tokenBody1, NetCall.token tokenBody2, NetCall.token tokenBody3] := by
  have hgt : get_token env.postToken =
      { token := none, requests := [tokenBody1, tokenBody2, tokenBody3],
        logs := ["Requesting token with body: " ++ tokenBody1,
                 "Token attempt 1 failed: " ++ (env.postToken tokenBody1).text,
                 "All token attempts failed."] } := by
    simp [get_token, h1, h2, h3]
  refine ⟨by rw [hgt], ?_⟩
  simp [mainCalls, hgt, tokenFalsy]

/-- Witness for C3: a concretely failing token endpoint aborts the run
after the three token requests. -/
theorem get_token_all_fail_aborts_witness :
    ((Env.mk (fun _ => TokenResp.mk 401 none "denied") (MeResp.mk 200 (some (MeData.mk (some 42))))
        (ImportResp.mk 201 (some (ImportData.mk (some "999"))) "") (fun _ => UploadResp.mk 201 "")
        (fun _ => true) (fun _ => []) 0).postToken tokenBody1).status ≠ 200 ∧
    mainCalls (Env.mk (fun _ => TokenResp.mk 401 none "denied")
        (MeResp.mk 200 (some (MeData.mk (some 42))))
        (ImportResp.mk 201 (some (ImportData.mk (some "999"))) "") (fun _ => UploadResp.mk 201 "")
        (fun _ => true) (fun _ => []) 0) =
      [NetCall.token tokenBody1, NetCall.token tokenBody2, NetCall.token tokenBody3] :=
  ⟨by decide, (get_token_all_fail_aborts _ (by decide) (by decide) (by decide)).2⟩

/-! ## Claim theorems: session resolver -/

/-- C10: `get_team_id` returns `None` on a 200 response whose body lacks
the nested `data.current_team_id` field, so a `None` result does not
imply a non-success status. -/
theorem get_team_id_none_on_success :
    get_team_id (MeResp.mk 200 (some (MeData.mk none))) = none ∧
    (MeResp.mk 200 (some (MeData.mk none))).status = 200 :=
  ⟨rfl, rfl⟩

/-! ## Claim theorems: token failure logging -/

/-- Byte-level substring test on strings (via their character lists). -/
def strContains (hay needle : String) : Bool := decide (needle.data <:+: hay.data)

set_option maxRecDepth 4000 in
/-- Counterexample to C7 as stated: with all three attempts failing and the
second attempt's response text being `BODY2FAILURE`, no emitted log line
carries that attempt's failure reason — only attempt 1's reason is logged. -/
theorem get_token_attempt2_reason_unlogged :
    (((fun b => if b = tokenBody2 then TokenResp.mk 401 none "BODY2FAILURE"
        else TokenResp.mk 401 none "OTHER") : String → TokenResp) tokenBody2).status ≠ 200 ∧
    ∀ msg ∈ (get_token ((fun b => if b = tokenBody2 then TokenResp.mk 401 none "BODY2FAILURE"
        else TokenResp.mk 401 none "OTHER") : String → TokenResp)).logs,
      strContains msg "BODY2FAILURE" = false := by decide

/-- C7 amended: only the FIRST failed attempt logs its failure reason (the
response text); when all three attempts fail a generic
`All token attempts failed.` line is additionally emitted, and failures of
attempts 2 and 3 produce no log line carrying their own reasons. -/
theorem get_token_failure_logging (post : String → TokenResp)
    (h1 : (post tokenBody1).status ≠ 200) :
    ("Token attempt 1 failed: " ++ (post tokenBody1).text) ∈ (get_token post).logs ∧
    ((post tokenBody2).status ≠ 200 → (post tokenBody3).status ≠ 200 →
      "All token attempts failed." ∈ (get_token post).logs) := by
  by_cases h2 : (post tokenBody2).status = 200 <;>
    by_cases h3 : (post tokenBody3).status = 200 <;>
    simp [get_token, h1, h2, h3]

/-- Witness for C7's amended theorem at a concretely failing endpoint. -/
theorem get_token_failure_logging_witness :
    (((fun _ => TokenResp.mk 401 none "nope") : String → TokenResp) tokenBody1).status ≠ 200 ∧
    ("Token attempt 1 failed: " ++
        (((fun _ => TokenResp.mk 401 none "nope") : String → TokenResp) tokenBody1).text) ∈
      (get_token ((fun _ => TokenResp.mk 401 none "nope") : String → TokenResp)).logs :=
  ⟨by decide, (get_token_failure_logging _ (by decide)).1⟩

/-! ## Claim theorems: single-file upload -/

/-- C5: `upload_file_hash_last` reports `true` exactly when the upload
response status is 200 or 201. -/
theorem upload_single_success_iff (post : List Nat → UploadResp)
    (readFile : String → List Nat) (t : Nat) (import_id : Option String)
    (file_path remote_path : String) :
    (upload_file_hash_last post readFile t import_id file_path remote_path).success = true ↔
    ((post (upload_file_hash_last post readFile t import_id file_path remote_path).body).status
        = 200 ∨
     (post (upload_file_hash_last post readFile t import_id file_path remote_path).body).status
        = 201) := by
  simp only [upload_file_hash_last, Bool.or_eq_true, beq_iff_eq]
  exact or_comm

theorem namePart_length_pos (b n : String) : 0 < (namePart b n).length := by
  have h : 0 < (strBytes "Content-Disposition: form-data; name=\x22name\x22\r\n\r\n").length := by
    decide
  simp only [namePart, List.length_append]
  omega

theorem pathPart_length_pos (b p : String) : 0 < (pathPart b p).length := by
  have h : 0 < (strBytes "Content-Disposition: form-data; name=\x22path\x22\r\n\r\n").length := by
    decide
  simp only [pathPart, List.length_append]
  omega

theorem filePart_length_pos (b n : String) (c : List Nat) : 0 < (filePart b n c).length := by
  have h : 0 < (strBytes "Content-Type: application/octet-stream\r\n\r\n").length := by decide
  simp only [filePart, List.length_append]
  omega

/-- C4: the single-upload body consists of the name, path, file and
content_hash parts in exactly that order, and the byte offset of the
`content_hash` part (the sum of the lengths of the three parts before it)
is strictly greater than the offsets of the name part (0), the path part,
and the file part. -/
theorem upload_single_field_order (post : List Nat → UploadResp)
    (readFile : String → List Nat) (t : Nat) (import_id : Option String)
    (file_path remote_path : String) :
    (upload_file_hash_last post readFile t import_id file_path remote_path).body =
      namePart (singleBoundary t) (basename file_path) ++
      pathPart (singleBoundary t) remote_path ++
      filePart (singleBoundary t) (basename file_path) (readFile file_path) ++
      hashPart (singleBoundary t)
        (computeContentHash (readFile file_path) (basename file_path)) ++
      closeDelim (singleBoundary t) ∧
    (namePart (singleBoundary t) (basename file_path)).length +
        (pathPart (singleBoundary t) remote_path).length +
        (filePart (singleBoundary t) (basename file_path) (readFile file_path)).length > 0 ∧
    (namePart (singleBoundary t) (basename file_path)).length +
        (pathPart (singleBoundary t) remote_path).length +
        (filePart (singleBoundary t) (basename file_path) (readFile file_path)).length >
      (namePart (singleBoundary t) (basename file_path)).length ∧
    (namePart (singleBoundary t) (basename file_path)).length +
        (pathPart (singleBoundary t) remote_path).length +
        (filePart (singleBoundary t) (basename file_path) (readFile file_path)).length >
      (namePart (singleBoundary t) (basename file_path)).length +
        (pathPart (singleBoundary t) remote_path).length := by
  have hn := namePart_length_pos (singleBoundary t) (basename file_path)
  have hp := pathPart_length_pos (singleBoundary t) remote_path
  have hf := filePart_length_pos (singleBoundary t) (basename file_path) (readFile file_path)
  exact ⟨rfl, by omega, by omega, by omega⟩

/-! ## Claim theorems: batch upload -/

theorem batchFileTriple_fst (b : String) (rf : String → List Nat) (fp : String) :
    (batchFileTriple b rf fp).map Prod.fst = ["name[]", "content_hash[]", "file[]"] := rfl

theorem count_flatMap_const {α β : Type} [DecidableEq β] (l : List α) (c : List β) (x : β) :
    (l.flatMap fun _ => c).count x = l.length * c.count x := by
  induction l with
  | nil => simp
  | cons a t ih =>
    simp only [List.flatMap_cons, List.count_append, ih, List.length_cons]
    ring

theorem batchParts_fst (b : String) (rf : String → List Nat) (fps : List String) (rp : String) :
    (batchParts b rf fps rp).map Prod.fst =
      fps.flatMap (fun _ => ["name[]", "content_hash[]", "file[]"]) ++ ["path"] := by
  simp only [batchParts, List.map_append, List.map_flatMap]
  rfl

/-- C6: the batch body is the concatenation of one
`name[]`/`content_hash[]`/`file[]` triple per input file followed by one
shared `path` part and the closing delimiter; the sequence of part names
contains exactly one `file[]`, `name[]` and `content_hash[]` part per
input file and exactly one `path` part, the `path` part coming after all
file-related parts. -/
theorem upload_batch_parts (post : List Nat → UploadResp) (readFile : String → List Nat)
    (t : Nat) (import_id : Option String) (file_paths : List String) (remote_path : String) :
    (upload_batch post readFile t import_id file_paths remote_path).body =
      (batchParts (batchBoundary t) readFile file_paths remote_path).flatMap Prod.snd ++
        closeDelim (batchBoundary t) ∧
    (batchParts (batchBoundary t) readFile file_paths remote_path).map Prod.fst =
      file_paths.flatMap (fun _ => ["name[]", "content_hash[]", "file[]"]) ++ ["path"] ∧
    ((batchParts (batchBoundary t) readFile file_paths remote_path).map Prod.fst).count "file[]"
        = file_paths.length ∧
    ((batchParts (batchBoundary t) readFile file_paths remote_path).map Prod.fst).count "name[]"
        = file_paths.length ∧
    ((batchParts (batchBoundary t) readFile file_paths remote_path).map
        Prod.fst).count "content_hash[]" = file_paths.length ∧
    ((batchParts (batchBoundary t) readFile file_paths remote_path).map Prod.fst).count "path"
        = 1 := by
  have hfst := batchParts_fst (batchBoundary t) readFile file_paths remote_path
  refine ⟨rfl, hfst, ?_, ?_, ?_, ?_⟩ <;>
    simp [hfst, List.count_append, count_flatMap_const]

/-! ## Generic multipart builder and parser (claim about §4.2 framing)

The builder generalises the two upload-body constructions of the script to
an arbitrary ordered list of field and file parts, with exactly the framing
both of them use.  The parser is modelled from the spec: a standard
multipart/form-data decoder (not part of the repository) that splits the
payload at `\r\n--boundary` delimiters, separates each part's headers from
its payload at the first blank line, and reads the field name, optional
file name and optional content type out of the headers. -/

/-- A multipart part: a plain field or a file attachment. -/
inductive Part
  | field (name value : String)
  | file (name fileName contentType : String) (content : List Nat)
deriving DecidableEq

/-- The header bytes of a part (before the blank line): the
`Content-Disposition` line, plus a `Content-Type` line for file parts. -/
def headerBytes : Part → List Nat
  | Part.field n _ =>
      strBytes ("Content-Disposition: form-data; name=\x22" ++ n ++ "\x22")
  | Part.file n fn ct _ =>
      strBytes ("Content-Disposition: form-data; name=\x22" ++ n ++ "\x22; filename=\x22" ++
        fn ++ "\x22") ++ [13, 10] ++ strBytes ("Content-Type: " ++ ct)

/-- The payload bytes of a part. -/
def payloadBytes : Part → List Nat
  | Part.field _ v => strBytes v
  | Part.file _ _ _ c => c

/-- The part's interior between `--boundary\r\n` and its trailing `\r\n`:
headers, blank line, payload. -/
def chunkBytes (p : Part) : List Nat := headerBytes p ++ [13, 10, 13, 10] ++ payloadBytes p

/-- One rendered part: `--boundary\r\n`, headers, blank line, payload, `\r\n`. -/
def renderPart (boundary : String) (p : Part) : List Nat :=
  partHead boundary ++ chunkBytes p ++ [13, 10]

/-- The full multipart body: every part in the order supplied, then the
closing `--boundary--\r\n`. -/
def buildMultipart (boundary : String) (parts : List Part) : List Nat :=
  parts.flatMap (renderPart boundary) ++ closeDelim boundary

/-- `--boundary` as bytes, given the boundary bytes. -/
def delimOf (B : List Nat) : List Nat := 45 :: 45 :: B

/-- `\r\n--boundary` as bytes: what the parser scans for. -/
def sepOf (B : List Nat) : List Nat := 13 :: 10 :: 45 :: 45 :: B

/-- What the parser recovers from one part's headers. -/
inductive PartInfo
  | field (name : List Nat)
  | file (name fileName contentType : List Nat)
deriving DecidableEq

/-- The parse result a faithful decoding of a part must produce: its header
information and its payload bytes. -/
def partInfoContent : Part → PartInfo × List Nat
  | Part.field n v => (PartInfo.field (strBytes n), strBytes v)
  | Part.file n fn ct c => (PartInfo.file (strBytes n) (strBytes fn) (strBytes ct), c)

/-- Index of the first occurrence of `pat` in a byte list, if any. -/
def findPattern (pat : List Nat) : List Nat → Option Nat
  | [] => if pat <+: ([] : List Nat) then some 0 else none
  | a :: t => if pat <+: (a :: t) then some 0 else (findPattern pat t).map (· + 1)

/-- Split a byte list at its first `\x22` (double quote) byte. -/
def splitAtQuote (l : List Nat) : Option (List Nat × List Nat) :=
  match findPattern [34] l with
  | none => none
  | some i => some (l.take i, l.drop (i + 1))

/-- `Content-Disposition: form-data; name="` as bytes. -/
def dispPrefix : List Nat := strBytes "Content-Disposition: form-data; name=\x22"

/-- `; filename="` as bytes. -/
def filenamePrefix : List Nat := strBytes "; filename=\x22"

/-- `\r\nContent-Type: ` as bytes. -/
def ctypePrefix : List Nat := [13, 10] ++ strBytes "Content-Type: "

/-- Modelled from the spec: header parsing of a standard multipart decoder —
reads the quoted field name of the `Content-Disposition: form-data` line,
then either nothing more (plain field) or a quoted `filename` and a
`Content-Type` line (file part). -/
def parseHeader (hb : List Nat) : Option PartInfo :=
  if dispPrefix <+: hb then
    match splitAtQuote (hb.drop dispPrefix.length) with
    | none => none
    | some (name, r1) =>
      if r1 = [] then some (PartInfo.field name)
      else if filenamePrefix <+: r1 then
        match splitAtQuote (r1.drop filenamePrefix.length) with
        | none => none
        | some (fname, r2) =>
          if ctypePrefix <+: r2 then
            some (PartInfo.file name fname (r2.drop ctypePrefix.length))
          else none
      else none
  else none

/-- Modelled from the spec: split a part's interior at the first blank line
into headers and payload, and parse the headers. -/
def parseChunk (chunk : List Nat) : Option (PartInfo × List Nat) :=
  match findPattern [13, 10, 13, 10] chunk with
  | none => none
  | some i =>
    match parseHeader (chunk.take i) with
    | none => none
    | some info => some (info, chunk.drop (i + 4))

/-- Modelled from the spec: the part loop of a standard multipart decoder.
Having consumed `--boundary`, it sees either `--\r\n` (the end) or `\r\n`
followed by a part interior that extends to the next `\r\n--boundary`. -/
def parseParts (B : List Nat) : Nat → List Nat → Option (List (PartInfo × List Nat))
  | 0, _ => none
  | fuel + 1, r =>
    if r = [45, 45, 13, 10] then some []
    else
      match r with
      | 13 :: 10 :: r1 =>
        match findPattern (sepOf B) r1 with
        | none => none
        | some i =>
          match parseChunk (r1.take i) with
          | none => none
          | some pc =>
            match parseParts B fuel (r1.drop (i + (sepOf B).length)) with
            | none => none
            | some rest => some (pc :: rest)
      | _ => none

/-- Modelled from the spec: a standard multipart/form-data decoder — checks
the body starts with `--boundary` and runs the part loop on the remainder. -/
def parseMultipart (boundary : String) (body : List Nat) : Option (List (PartInfo × List Nat)) :=
  let B := strBytes boundary
  if delimOf B <+: body then parseParts B (body.length + 1) (body.drop (delimOf B).length)
  else none

/-- The body bytes following the initial `--boundary`: for each part,
`\r\n`, its interior, then `\r\n--boundary`; finally `--\r\n`. -/
def tailBytes (B : List Nat) : List Part → List Nat
  | [] => [45, 45, 13, 10]
  | p :: ps => 13 :: 10 :: (chunkBytes p ++ (sepOf B ++ tailBytes B ps))

/-- Byte hygiene of a part's header tokens: the field name (and for file
parts the file name and content type) contain no double-quote, CR or LF
bytes (content types: no CR or LF). -/
def GoodPart : Part → Prop
  | Part.field n _ => 34 ∉ strBytes n ∧ 13 ∉ strBytes n ∧ 10 ∉ strBytes n
  | Part.file n fn ct _ =>
      (34 ∉ strBytes n ∧ 13 ∉ strBytes n ∧ 10 ∉ strBytes n) ∧
      (34 ∉ strBytes fn ∧ 13 ∉ strBytes fn ∧ 10 ∉ strBytes fn) ∧
      (13 ∉ strBytes ct ∧ 10 ∉ strBytes ct)

instance instDecidableGoodPart : (p : Part) → Decidable (GoodPart p)
  | Part.field n _ =>
      inferInstanceAs (Decidable ((34 ∉ strBytes n ∧ 13 ∉ strBytes n ∧ 10 ∉ strBytes n)))
  | Part.file n fn ct _ =>
      inferInstanceAs (Decidable ((34 ∉ strBytes n ∧ 13 ∉ strBytes n ∧ 10 ∉ strBytes n) ∧
        (34 ∉ strBytes fn ∧ 13 ∉ strBytes fn ∧ 10 ∉ strBytes fn) ∧
        (13 ∉ strBytes ct ∧ 10 ∉ strBytes ct)))

theorem partHead_eq (b : String) : partHead b = delimOf (strBytes b) ++ [13, 10] := by
  have h1 : strBytes "--" = [45, 45] := by decide
  have h2 : strBytes "\r\n" = [13, 10] := by decide
  simp [partHead, strBytes_append, h1, h2, delimOf]

theorem closeDelim_eq (b : String) :
    closeDelim b = delimOf (strBytes b) ++ [45, 45, 13, 10] := by
  have h1 : strBytes "--" = [45, 45] := by decide
  have h2 : strBytes "--\r\n" = [45, 45, 13, 10] := by decide
  simp [closeDelim, strBytes_append, h1, h2, delimOf]

theorem buildMultipart_eq_tail (b : String) (parts : List Part) :
    buildMultipart b parts = delimOf (strBytes b) ++ tailBytes (strBytes b) parts := by
  induction parts with
  | nil => simp [buildMultipart, tailBytes, closeDelim_eq]
  | cons p ps ih =>
    simp only [buildMultipart, List.flatMap_cons, List.append_assoc] at ih ⊢
    rw [ih, renderPart, partHead_eq]
    simp [tailBytes, sepOf, delimOf]

theorem findPattern_of_prefix (pat l : List Nat) (h : pat <+: l) : findPattern pat l = some 0 := by
  cases l <;> simp [findPattern, h]

theorem findPattern_append (pat a b : List Nat)
    (h : ∀ s, s ≠ [] → s <:+ a → ¬ pat <+: (s ++ b)) :
    findPattern pat (a ++ b) = (findPattern pat b).map (· + a.length) := by
  induction a with
  | nil =>
    simp only [List.nil_append, List.length_nil]
    cases findPattern pat b <;> simp
  | cons x t ih =>
    have hx : ¬ pat <+: (x :: (t ++ b)) := by
      have := h (x :: t) (by simp) (List.suffix_refl _)
      simpa using this
    simp only [List.cons_append, findPattern, List.append_eq, if_neg hx]
    rw [ih (fun s hs hsuf => h s hs (hsuf.trans (List.suffix_cons x t)))]
    cases findPattern pat b <;> simp <;> omega

theorem findPattern_spec_concat (pat a b : List Nat) (hb : pat <+: b)
    (h : ∀ s, s ≠ [] → s <:+ a → ¬ pat <+: (s ++ b)) :
    findPattern pat (a ++ b) = some a.length := by
  rw [findPattern_append pat a b h, findPattern_of_prefix pat b hb]
  simp

theorem suffix_of_suffix_append (s X Y : List Nat) (h : s <:+ X ++ Y)
    (hlen : s.length ≤ Y.length) : s <:+ Y := by
  obtain ⟨t, ht⟩ := h
  have hlen2 : X.length ≤ t.length := by
    have := congrArg List.length ht
    simp only [List.length_append] at this
    omega
  refine ⟨t.drop X.length, ?_⟩
  have h1 : t.drop X.length ++ s = (t ++ s).drop X.length := by
    rw [List.drop_append_eq_append_drop]
    have h0 : X.length - t.length = 0 := by omega
    rw [h0, List.drop_zero]
  rw [h1, ht, List.drop_left]

/-- No occurrence of `\r\n--boundary` can start inside a part interior that
does not contain the boundary bytes, when the boundary contains no CR. -/
theorem sep_no_straddle (B chunk rest : List Nat) (hB : 13 ∉ B) (hocc : ¬ B <:+: chunk) :
    ∀ s, s ≠ [] → s <:+ chunk → ¬ sepOf B <+: (s ++ (sepOf B ++ rest)) := by
  intro s hs hsuf hpre
  have hd1 : 0 < s.length := List.length_pos.mpr hs
  have hlen : (sepOf B).length = B.length + 4 := by simp [sepOf]
  have heq : sepOf B = s.take (sepOf B).length ++
      (sepOf B ++ rest).take ((sepOf B).length - s.length) := by
    have h1 := List.prefix_iff_eq_take.mp hpre
    rwa [List.take_append_eq_append_take] at h1
  by_cases hcase : (sepOf B).length ≤ s.length
  · have h0 : (sepOf B).length - s.length = 0 := by omega
    rw [h0, List.take_zero, List.append_nil] at heq
    have hps : sepOf B <+: s := by rw [heq]; exact List.take_prefix _ _
    have hsepinf : sepOf B <:+: chunk := hps.isInfix.trans hsuf.isInfix
    have hBsuf : B <:+ sepOf B := ⟨[13, 10, 45, 45], rfl⟩
    exact hocc (hBsuf.isInfix.trans hsepinf)
  · push_neg at hcase
    have hst : s.take (sepOf B).length = s := List.take_of_length_le (by omega)
    rw [hst] at heq
    have htk : (sepOf B ++ rest).take ((sepOf B).length - s.length) =
        (sepOf B).take ((sepOf B).length - s.length) := by
      rw [List.take_append_eq_append_take]
      have h0 : (sepOf B).length - s.length - (sepOf B).length = 0 := by omega
      rw [h0, List.take_zero, List.append_nil]
    rw [htk] at heq
    have hdt : (sepOf B).drop s.length = (sepOf B).take ((sepOf B).length - s.length) := by
      conv_lhs => rw [heq]
      rw [List.drop_left]
    obtain ⟨k, hk⟩ : ∃ k, (sepOf B).length - s.length = k + 1 :=
      ⟨(sepOf B).length - s.length - 1, by omega⟩
    have hhead : ((sepOf B).drop s.length).head? = some 13 := by
      rw [hdt, hk]
      simp [sepOf]
    have hd4 : s.length = 1 ∨ s.length = 2 ∨ s.length = 3 ∨ ∃ m, s.length = m + 4 := by
      rcases Nat.lt_or_ge s.length 4 with h4 | h4
      · omega
      · exact Or.inr (Or.inr (Or.inr ⟨s.length - 4, by omega⟩))
    rcases hd4 with hd | hd | hd | ⟨m, hd⟩ <;> rw [hd] at hhead
    · simp [sepOf] at hhead
    · simp [sepOf] at hhead
    · simp [sepOf] at hhead
    · have hdrop : (sepOf B).drop (m + 4) = B.drop m := by
        simp [sepOf, List.drop_succ_cons]
      rw [hdrop] at hhead
      have h13 : 13 ∈ B.drop m := List.mem_of_mem_head? (by simp [hhead])
      exact hB ((List.drop_sublist m B).subset h13)

/-- No occurrence of the blank-line marker `\r\n\r\n` can start inside
header bytes that neither contain it nor end with `\r\n`. -/
theorem dd_no_straddle (hb payload : List Nat)
    (hA : ¬ [13, 10, 13, 10] <:+: hb) (hBend : ¬ [13, 10] <:+ hb) :
    ∀ s, s ≠ [] → s <:+ hb → ¬ [13, 10, 13, 10] <+: (s ++ ([13, 10, 13, 10] ++ payload)) := by
  intro s hs hsuf hpre
  have hd1 : 0 < s.length := List.length_pos.mpr hs
  have hplen : ([13, 10, 13, 10] : List Nat).length = 4 := rfl
  have heq : ([13, 10, 13, 10] : List Nat) = s.take 4 ++
      (([13, 10, 13, 10] : List Nat) ++ payload).take (4 - s.length) := by
    have h1 := List.prefix_iff_eq_take.mp hpre
    rw [List.take_append_eq_append_take, hplen] at h1
    exact h1
  by_cases hcase : 4 ≤ s.length
  · have h0 : 4 - s.length = 0 := by omega
    rw [h0, List.take_zero, List.append_nil] at heq
    have hps : ([13, 10, 13, 10] : List Nat) <+: s := by rw [heq]; exact List.take_prefix _ _
    exact hA (hps.isInfix.trans hsuf.isInfix)
  · push_neg at hcase
    have hst : s.take 4 = s := List.take_of_length_le (by omega)
    rw [hst] at heq
    have htk : (([13, 10, 13, 10] : List Nat) ++ payload).take (4 - s.length) =
        ([13, 10, 13, 10] : List Nat).take (4 - s.length) := by
      rw [List.take_append_eq_append_take, hplen]
      have h0 : 4 - s.length - 4 = 0 := by omega
      rw [h0, List.take_zero, List.append_nil]
    rw [htk] at heq
    have hdt : ([13, 10, 13, 10] : List Nat).drop s.length =
        ([13, 10, 13, 10] : List Nat).take (4 - s.length) := by
      conv_lhs => rw [heq]
      rw [List.drop_left]
    have hd3 : s.length = 1 ∨ s.length = 2 ∨ s.length = 3 := by omega
    rcases hd3 with hd | hd | hd <;> rw [hd] at hdt heq
    · exact absurd hdt (by decide)
    · have hs2 : s = [13, 10] := by
        have h1 : s.take 2 = s := List.take_of_length_le (by omega)
        have h2 : (s ++ ([13, 10, 13, 10] : List Nat).take (4 - 2)).take 2 = s.take 2 := by
          rw [List.take_append_eq_append_take]
          have h0 : 2 - s.length = 0 := by omega
          rw [h0, List.take_zero, List.append_nil]
        have h3 := congrArg (List.take 2) heq
        rw [h2, h1] at h3
        exact h3.symm ▸ rfl
      exact hBend (hs2 ▸ hsuf)
    · exact absurd hdt (by decide)

theorem splitAtQuote_concat (l X : List Nat) (h34 : 34 ∉ l) :
    splitAtQuote (l ++ ([34] ++ X)) = some (l, X) := by
  have hf : findPattern [34] (l ++ ([34] ++ X)) = some l.length := by
    apply findPattern_spec_concat
    · exact List.prefix_append ..
    · intro s hs hsuf hpre
      obtain ⟨a, t, rfl⟩ : ∃ a t, s = a :: t := by
        cases s with
        | nil => exact absurd rfl hs
        | cons a t => exact ⟨a, t, rfl⟩
      have ha : a = 34 := by
        have h1 := List.prefix_iff_eq_take.mp hpre
        simp [List.take_succ_cons] at h1
        exact h1.symm
      exact h34 (hsuf.sublist.subset (ha ▸ List.mem_cons_self a t))
  rw [splitAtQuote, hf]
  have ht : (l ++ ([34] ++ X)).take l.length = l := List.take_left ..
  have hd : (l ++ ([34] ++ X)).drop (l.length + 1) = X := by
    rw [List.drop_append 1]
    rfl
  simp only [ht, hd]

theorem parseHeader_field (n v : String) (hg : GoodPart (Part.field n v)) :
    parseHeader (headerBytes (Part.field n v)) = some (PartInfo.field (strBytes n)) := by
  obtain ⟨h34, h13, h10⟩ := hg
  have hq : strBytes "\x22" = [34] := by decide
  have hsplit : headerBytes (Part.field n v) = dispPrefix ++ (strBytes n ++ ([34] ++ [])) := by
    simp [headerBytes, strBytes_append, dispPrefix, hq]
  rw [hsplit, parseHeader, if_pos (List.prefix_append ..), List.drop_left,
    splitAtQuote_concat _ _ h34]
  rfl

theorem parseHeader_file (n fn ct : String) (c : List Nat)
    (hg : GoodPart (Part.file n fn ct c)) :
    parseHeader (headerBytes (Part.file n fn ct c)) =
      some (PartInfo.file (strBytes n) (strBytes fn) (strBytes ct)) := by
  obtain ⟨⟨hn34, hn13, hn10⟩, ⟨hf34, hf13, hf10⟩, hct13, hct10⟩ := hg
  have hq : strBytes "\x22; filename=\x22" = [34] ++ filenamePrefix := by decide
  have hq2 : strBytes "\x22" = [34] := by decide
  have hsplit : headerBytes (Part.file n fn ct c) =
      dispPrefix ++ (strBytes n ++ ([34] ++ (filenamePrefix ++
        (strBytes fn ++ ([34] ++ (ctypePrefix ++ strBytes ct)))))) := by
    simp [headerBytes, strBytes_append, dispPrefix, filenamePrefix, ctypePrefix, hq, hq2]
  rw [hsplit, parseHeader, if_pos (List.prefix_append ..), List.drop_left,
    splitAtQuote_concat (strBytes n) _ hn34]
  have hne : (filenamePrefix ++ (strBytes fn ++ ([34] ++ (ctypePrefix ++ strBytes ct)))) ≠ [] := by
    have hl : filenamePrefix.length = 12 := by decide
    intro h
    have h2 := congrArg List.length h
    simp only [List.length_append, hl, List.length_nil] at h2
    omega
  simp only []
  rw [if_neg hne, if_pos (List.prefix_append ..), List.drop_left,
    splitAtQuote_concat (strBytes fn) _ hf34]
  simp only []
  rw [if_pos (List.prefix_append ..), List.drop_left]

theorem parseChunk_chunk (p : Part) (hg : GoodPart p) :
    parseChunk (chunkBytes p) = some (partInfoContent p) := by
  have hassoc : chunkBytes p = headerBytes p ++ ([13, 10, 13, 10] ++ payloadBytes p) := by
    simp [chunkBytes, List.append_assoc]
  have hAB : (¬ [13, 10, 13, 10] <:+: headerBytes p) ∧ (¬ [13, 10] <:+ headerBytes p) := by
    cases p with
    | field n v =>
      obtain ⟨h34, h13, h10⟩ := hg
      have hb13 : 13 ∉ headerBytes (Part.field n v) := by
        simp only [headerBytes, strBytes_append, List.mem_append, not_or]
        exact ⟨⟨by decide, h13⟩, by decide⟩
      exact ⟨fun hin => hb13 (hin.sublist.subset (by decide)),
        fun hsuf => hb13 (hsuf.sublist.subset (by decide))⟩
    | file n fn ct c =>
      obtain ⟨⟨hn34, hn13, hn10⟩, ⟨hf34, hf13, hf10⟩, hct13, hct10⟩ := hg
      have hdisp13 : 13 ∉ strBytes ("Content-Disposition: form-data; name=\x22" ++ n ++
          "\x22; filename=\x22" ++ fn ++ "\x22") := by
        simp only [strBytes_append, List.mem_append, not_or]
        exact ⟨⟨⟨⟨by decide, hn13⟩, by decide⟩, hf13⟩, by decide⟩
      have hct13' : 13 ∉ strBytes ("Content-Type: " ++ ct) := by
        simp only [strBytes_append, List.mem_append, not_or]
        exact ⟨by decide, hct13⟩
      have hcount : (headerBytes (Part.file n fn ct c)).count 13 = 1 := by
        simp only [headerBytes, List.count_append]
        rw [List.count_eq_zero.mpr hdisp13, List.count_eq_zero.mpr hct13']
        decide
      constructor
      · intro hin
        have hle := hin.sublist.count_le 13
        rw [hcount] at hle
        have : ([13, 10, 13, 10] : List Nat).count 13 = 2 := by decide
        omega
      · intro hsuf
        have hlen : ([13, 10] : List Nat).length ≤
            (strBytes ("Content-Type: " ++ ct)).length := by
          have h14 : (strBytes "Content-Type: ").length = 14 := by decide
          have h2 : ([13, 10] : List Nat).length = 2 := rfl
          simp only [strBytes_append, List.length_append, h14, h2]
          omega
        have hsufY := suffix_of_suffix_append [13, 10]
          (strBytes ("Content-Disposition: form-data; name=\x22" ++ n ++
            "\x22; filename=\x22" ++ fn ++ "\x22") ++ [13, 10])
          (strBytes ("Content-Type: " ++ ct)) hsuf hlen
        exact hct13' (hsufY.sublist.subset (by decide))
  have hf : findPattern [13, 10, 13, 10] (chunkBytes p) = some (headerBytes p).length := by
    rw [hassoc]
    exact findPattern_spec_concat _ _ _ (List.prefix_append ..)
      (dd_no_straddle _ _ hAB.1 hAB.2)
  have ht : (chunkBytes p).take (headerBytes p).length = headerBytes p := by
    rw [hassoc]; exact List.take_left ..
  have hd : (chunkBytes p).drop ((headerBytes p).length + 4) = payloadBytes p := by
    rw [hassoc, List.drop_append 4]
    rfl
  rw [parseChunk, hf]
  simp only [ht, hd]
  cases p with
  | field n v => rw [parseHeader_field n v hg]; rfl
  | file n fn ct c => rw [parseHeader_file n fn ct c hg]; rfl

theorem tailBytes_length_ge (B : List Nat) (parts : List Part) :
    parts.length ≤ (tailBytes B parts).length := by
  induction parts with
  | nil => simp [tailBytes]
  | cons p ps ih =>
    simp only [tailBytes, List.length_cons, List.length_append]
    omega

theorem parseParts_tailBytes (B : List Nat) (parts : List Part) :
    ∀ fuel : Nat, parts.length < fuel → 13 ∉ B →
    (∀ p ∈ parts, ¬ B <:+: chunkBytes p) →
    (∀ p ∈ parts, GoodPart p) →
    parseParts B fuel (tailBytes B parts) = some (parts.map partInfoContent) := by
  induction parts with
  | nil =>
    intro fuel hfuel _ _ _
    cases fuel with
    | zero => omega
    | succ f => simp [parseParts, tailBytes]
  | cons p ps ih =>
    intro fuel hfuel hB hocc hgood
    cases fuel with
    | zero => omega
    | succ f =>
      have hocc_p := hocc p (List.mem_cons_self p ps)
      have hg_p := hgood p (List.mem_cons_self p ps)
      have hfp : findPattern (sepOf B) (chunkBytes p ++ (sepOf B ++ tailBytes B ps)) =
          some (chunkBytes p).length :=
        findPattern_spec_concat _ _ _ (List.prefix_append ..)
          (sep_no_straddle B (chunkBytes p) (tailBytes B ps) hB hocc_p)
      have hdrop : (chunkBytes p ++ (sepOf B ++ tailBytes B ps)).drop
          ((chunkBytes p).length + (sepOf B).length) = tailBytes B ps := by
        rw [List.drop_append (sepOf B).length, List.drop_left]
      have hrec := ih f (by simp only [List.length_cons] at hfuel; omega) hB
        (fun q hq => hocc q (List.mem_cons_of_mem p hq))
        (fun q hq => hgood q (List.mem_cons_of_mem p hq))
      simp only [tailBytes, parseParts]
      rw [if_neg (by simp)]
      simp only [hfp, List.take_left, parseChunk_chunk p hg_p, hdrop, hrec, List.map_cons]

/-- C8 amended: building a multipart body from any ordered list of field
and file parts and decoding it with the standard multipart parser recovers
exactly the original parts — field names, file names, content types, field
values and file bytes, in the order supplied — provided the boundary
contains no CR byte and does not occur inside any part's rendered interior,
and the parts' names, file names and content types contain no double-quote,
CR or LF bytes. -/
theorem multipart_build_parse_roundtrip (boundary : String) (parts : List Part)
    (hB : 13 ∉ strBytes boundary)
    (hocc : ∀ p ∈ parts, ¬ strBytes boundary <:+: chunkBytes p)
    (hgood : ∀ p ∈ parts, GoodPart p) :
    parseMultipart boundary (buildMultipart boundary parts) =
      some (parts.map partInfoContent) := by
  rw [buildMultipart_eq_tail]
  simp only [parseMultipart]
  rw [if_pos (List.prefix_append ..), List.drop_left]
  refine parseParts_tailBytes _ _ _ ?_ hB hocc hgood
  have h1 := tailBytes_length_ge (strBytes boundary) parts
  simp only [List.length_append]
  omega

set_option maxRecDepth 40000 in
/-- Counterexample to C8 as stated: a single field part whose name contains
a CRLF CRLF sequence satisfies the boundary-non-occurrence proviso (the
boundary `XBnd` occurs nowhere in the part), yet a standard multipart
parser does not recover the part's value from the built payload — the
premature blank line truncates the headers. -/
theorem multipart_roundtrip_cex :
    (∀ p ∈ [Part.field "a\r\n\r\nZ" "v"], ¬ strBytes "XBnd" <:+: chunkBytes p) ∧
    parseMultipart "XBnd" (buildMultipart "XBnd" [Part.field "a\r\n\r\nZ" "v"]) ≠
      some ([Part.field "a\r\n\r\nZ" "v"].map partInfoContent) := by
  decide

set_option maxRecDepth 40000 in
/-- Witness for the amended C8 round-trip at a concrete boundary and part
list (a field part and a file part whose content contains CR, LF and
dashes). -/
theorem multipart_build_parse_roundtrip_witness :
    (13 ∉ strBytes "B1" ∧
      (∀ p ∈ [Part.field "name" "id.json",
              Part.file "file" "id.json" "application/octet-stream" [1, 2, 13, 10, 45]],
        ¬ strBytes "B1" <:+: chunkBytes p) ∧
      (∀ p ∈ [Part.field "name" "id.json",
              Part.file "file" "id.json" "application/octet-stream" [1, 2, 13, 10, 45]],
        GoodPart p)) ∧
    parseMultipart "B1" (buildMultipart "B1"
        [Part.field "name" "id.json",
         Part.file "file" "id.json" "application/octet-stream" [1, 2, 13, 10, 45]]) =
      some ([Part.field "name" "id.json",
             Part.file "file" "id.json" "application/octet-stream" [1, 2, 13, 10, 45]].map
        partInfoContent) :=
  ⟨⟨by decide, by decide, by decide⟩,
    multipart_build_parse_roundtrip "B1" _ (by decide) (by decide) (by decide)⟩

/-! ## The source's upload bodies are instances of the generic builder -/

theorem append_group {α : Type} (a b c : List α) (h : a ++ b = c) (X : List α) :
    a ++ (b ++ X) = c ++ X := by rw [← List.append_assoc, h]

theorem renderPart_name (b fn : String) :
    renderPart b (Part.field "name" fn) = namePart b fn := by
  have g1 : ∀ X : List Nat,
      strBytes ("Content-Disposition: form-data; name=\x22" ++ "name" ++ "\x22") ++
        ([13, 10, 13, 10] ++ X) =
      strBytes "Content-Disposition: form-data; name=\x22name\x22\r\n\r\n" ++ X :=
    fun X => append_group _ _ _ (by decide) X
  have h2 : strBytes "\r\n" = ([13, 10] : List Nat) := by decide
  simp only [renderPart, chunkBytes, headerBytes, payloadBytes, namePart,
    List.append_assoc, g1, h2]

theorem renderPart_path (b rp : String) :
    renderPart b (Part.field "path" rp) = pathPart b rp := by
  have g1 : ∀ X : List Nat,
      strBytes ("Content-Disposition: form-data; name=\x22" ++ "path" ++ "\x22") ++
        ([13, 10, 13, 10] ++ X) =
      strBytes "Content-Disposition: form-data; name=\x22path\x22\r\n\r\n" ++ X :=
    fun X => append_group _ _ _ (by decide) X
  have h2 : strBytes "\r\n" = ([13, 10] : List Nat) := by decide
  simp only [renderPart, chunkBytes, headerBytes, payloadBytes, pathPart,
    List.append_assoc, g1, h2]

theorem renderPart_hash (b ch : String) :
    renderPart b (Part.field "content_hash" ch) = hashPart b ch := by
  have g1 : ∀ X : List Nat,
      strBytes ("Content-Disposition: form-data; name=\x22" ++ "content_hash" ++ "\x22") ++
        ([13, 10, 13, 10] ++ X) =
      strBytes "Content-Disposition: form-data; name=\x22content_hash\x22\r\n\r\n" ++ X :=
    fun X => append_group _ _ _ (by decide) X
  have h2 : strBytes "\r\n" = ([13, 10] : List Nat) := by decide
  simp only [renderPart, chunkBytes, headerBytes, payloadBytes, hashPart,
    List.append_assoc, g1, h2]

theorem renderPart_file (b fn : String) (c : List Nat) :
    renderPart b (Part.file "file" fn "application/octet-stream" c) = filePart b fn c := by
  have g1 : ∀ X : List Nat,
      strBytes "\x22" ++ ([13, 10] ++ X) = strBytes "\x22\r\n" ++ X :=
    fun X => append_group _ _ _ (by decide) X
  have gts : ∀ X : List Nat,
      strBytes "application/octet-stream" ++ ([13, 10, 13, 10] ++ X) =
      strBytes "application/octet-stream\r\n\r\n" ++ X :=
    fun X => append_group _ _ _ (by decide) X
  have gct : ∀ X : List Nat,
      strBytes "Content-Type: " ++ (strBytes "application/octet-stream\r\n\r\n" ++ X) =
      strBytes "Content-Type: application/octet-stream\r\n\r\n" ++ X :=
    fun X => append_group _ _ _ (by decide) X
  have gfb : ∀ X : List Nat,
      strBytes "file" ++ (strBytes "\x22; filename=\x22" ++ X) =
      strBytes "file\x22; filename=\x22" ++ X :=
    fun X => append_group _ _ _ (by decide) X
  have gdisp : ∀ X : List Nat,
      strBytes "Content-Disposition: form-data; name=\x22" ++
        (strBytes "file\x22; filename=\x22" ++ X) =
      strBytes "Content-Disposition: form-data; name=\x22file\x22; filename=\x22" ++ X :=
    fun X => append_group _ _ _ (by decide) X
  have h2 : strBytes "\r\n" = ([13, 10] : List Nat) := by decide
  simp only [renderPart, chunkBytes, headerBytes, payloadBytes, filePart,
    strBytes_append, List.append_assoc, g1, gts, gct, gfb, gdisp, h2]

/-- The single-upload body is exactly the generic multipart builder applied
to the parts name, path, file, content_hash in that order. -/
theorem upload_single_body_as_multipart (post : List Nat → UploadResp)
    (readFile : String → List Nat) (t : Nat) (import_id : Option String)
    (file_path remote_path : String) :
    (upload_file_hash_last post readFile t import_id file_path remote_path).body =
      buildMultipart (singleBoundary t)
        [Part.field "name" (basename file_path),
         Part.field "path" remote_path,
         Part.file "file" (basename file_path) "application/octet-stream" (readFile file_path),
         Part.field "content_hash"
           (computeContentHash (readFile file_path) (basename file_path))] := by
  simp only [upload_file_hash_last, buildMultipart, List.flatMap_cons, List.flatMap_nil,
    List.append_nil, renderPart_name, renderPart_path, renderPart_file, renderPart_hash,
    List.append_assoc]

theorem renderPart_bname (b fn : String) :
    renderPart b (Part.field "name[]" fn) = bNamePart b fn := by
  have g1 : ∀ X : List Nat,
      strBytes ("Content-Disposition: form-data; name=\x22" ++ "name[]" ++ "\x22") ++
        ([13, 10, 13, 10] ++ X) =
      strBytes "Content-Disposition: form-data; name=\x22name[]\x22\r\n\r\n" ++ X :=
    fun X => append_group _ _ _ (by decide) X
  have h2 : strBytes "\r\n" = ([13, 10] : List Nat) := by decide
  simp only [renderPart, chunkBytes, headerBytes, payloadBytes, bNamePart,
    List.append_assoc, g1, h2]

theorem renderPart_bhash (b ch : String) :
    renderPart b (Part.field "content_hash[]" ch) = bHashPart b ch := by
  have g1 : ∀ X : List Nat,
      strBytes ("Content-Disposition: form-data; name=\x22" ++ "content_hash[]" ++ "\x22") ++
        ([13, 10, 13, 10] ++ X) =
      strBytes "Content-Disposition: form-data; name=\x22content_hash[]\x22\r\n\r\n" ++ X :=
    fun X => append_group _ _ _ (by decide) X
  have h2 : strBytes "\r\n" = ([13, 10] : List Nat) := by decide
  simp only [renderPart, chunkBytes, headerBytes, payloadBytes, bHashPart,
    List.append_assoc, g1, h2]

theorem renderPart_bfile (b fn : String) (c : List Nat) :
    renderPart b (Part.file "file[]" fn "application/octet-stream" c) = bFilePart b fn c := by
  have g1 : ∀ X : List Nat,
      strBytes "\x22" ++ ([13, 10] ++ X) = strBytes "\x22\r\n" ++ X :=
    fun X => append_group _ _ _ (by decide) X
  have gts : ∀ X : List Nat,
      strBytes "application/octet-stream" ++ ([13, 10, 13, 10] ++ X) =
      strBytes "application/octet-stream\r\n\r\n" ++ X :=
    fun X => append_group _ _ _ (by decide) X
  have gct : ∀ X : List Nat,
      strBytes "Content-Type: " ++ (strBytes "application/octet-stream\r\n\r\n" ++ X) =
      strBytes "Content-Type: application/octet-stream\r\n\r\n" ++ X :=
    fun X => append_group _ _ _ (by decide) X
  have gfb : ∀ X : List Nat,
      strBytes "file[]" ++ (strBytes "\x22; filename=\x22" ++ X) =
      strBytes "file[]\x22; filename=\x22" ++ X :=
    fun X => append_group _ _ _ (by decide) X
  have gdisp : ∀ X : List Nat,
      strBytes "Content-Disposition: form-data; name=\x22" ++
        (strBytes "file[]\x22; filename=\x22" ++ X) =
      strBytes "Content-Disposition: form-data; name=\x22file[]\x22; filename=\x22" ++ X :=
    fun X => append_group _ _ _ (by decide) X
  have h2 : strBytes "\r\n" = ([13, 10] : List Nat) := by decide
  simp only [renderPart, chunkBytes, headerBytes, payloadBytes, bFilePart,
    strBytes_append, List.append_assoc, g1, gts, gct, gfb, gdisp, h2]

theorem renderPart_bpath (b rp : String) :
    renderPart b (Part.field "path" rp) = bPathPart b rp := by
  have g1 : ∀ X : List Nat,
      strBytes ("Content-Disposition: form-data; name=\x22" ++ "path" ++ "\x22") ++
        ([13, 10, 13, 10] ++ X) =
      strBytes "Content-Disposition: form-data; name=\x22path\x22\r\n\r\n" ++ X :=
    fun X => append_group _ _ _ (by decide) X
  have h2 : strBytes "\r\n" = ([13, 10] : List Nat) := by decide
  simp only [renderPart, chunkBytes, headerBytes, payloadBytes, bPathPart,
    List.append_assoc, g1, h2]

/-- The batch-upload body is exactly the generic multipart builder applied
to one `name[]`/`content_hash[]`/`file[]` triple per file followed by the
shared `path` part. -/
theorem upload_batch_body_as_multipart (post : List Nat → UploadResp)
    (readFile : String → List Nat) (t : Nat) (import_id : Option String)
    (file_paths : List String) (remote_path : String) :
    (upload_batch post readFile t import_id file_paths remote_path).body =
      buildMultipart (batchBoundary t)
        (file_paths.flatMap (fun fp =>
          [Part.field "name[]" (basename fp),
           Part.field "content_hash[]" (computeContentHash (readFile fp) (basename fp)),
           Part.file "file[]" (basename fp) "application/octet-stream" (readFile fp)]) ++
         [Part.field "path" remote_path]) := by
  simp only [upload_batch, buildMultipart, batchParts, List.flatMap_append, List.flatMap_cons,
    List.flatMap_nil, List.append_nil, List.append_assoc]
  congr 1
  · induction file_paths with
    | nil => rfl
    | cons fp fps ih =>
      simp only [List.flatMap_cons, batchFileTriple, List.flatMap_append, ih,
        renderPart_bname, renderPart_bhash, renderPart_bfile, List.append_assoc]
      rfl
  · simp [renderPart_bpath, List.append_assoc]

end Uploader
